import Mathlib

/-!
Shallow embedding of the personality/life-simulation engines
(`PersonalityEngine` and `EventSystem` from the JavaScript source).
JavaScript numbers are modelled as rationals (ℚ); ages are integers.
JavaScript objects used as finite maps are modelled as association
lists in key-insertion order.
-/

namespace PersonalitySim

/-- The five OCEAN dimensions. -/
inductive Dim : Type
| O | C | E | A | N
deriving DecidableEq, Repr

/-- A five-field record of rationals, one per OCEAN dimension.
Used both for the trait vector `ocean` and for the `confidence` bands,
which in the source are objects with exactly the keys O, C, E, A, N. -/
structure OceanMap : Type where
  O : ℚ
  C : ℚ
  E : ℚ
  A : ℚ
  N : ℚ
deriving DecidableEq, Repr

def OceanMap.get (m : OceanMap) : Dim → ℚ
  | .O => m.O
  | .C => m.C
  | .E => m.E
  | .A => m.A
  | .N => m.N

def OceanMap.set (m : OceanMap) (d : Dim) (v : ℚ) : OceanMap :=
  match d with
  | .O => { m with O := v }
  | .C => { m with C := v }
  | .E => { m with E := v }
  | .A => { m with A := v }
  | .N => { m with N := v }

/-- The property key of a dimension in the `ocean` object. -/
def dimName : Dim → String
  | .O => "O"
  | .C => "C"
  | .E => "E"
  | .A => "A"
  | .N => "N"

/-- `this.ocean.hasOwnProperty(trait)`: a string key is recognized iff it is
one of the five dimension names. -/
def parseDim (k : String) : Option Dim :=
  if k = "O" then some .O
  else if k = "C" then some .C
  else if k = "E" then some .E
  else if k = "A" then some .A
  else if k = "N" then some .N
  else none

/-- State owned by `PersonalityEngine`: trait vector, confidence bands,
stress scalar, and trajectory-tag counts (object modelled as an
association list in insertion order). -/
structure PEState : Type where
  ocean : OceanMap
  confidence : OceanMap
  stress : ℚ
  trajectoryTags : List (String × Nat)
deriving DecidableEq, Repr

/-- The literal initial values of the engine (also what `reset()` writes). -/
def initialPEState : PEState :=
  { ocean := ⟨50, 50, 50, 50, 50⟩
    confidence := ⟨30, 30, 30, 30, 30⟩
    stress := 30
    trajectoryTags := [] }

def PEState.reset (_s : PEState) : PEState := initialPEState

/-- One iteration of the `for (const trait in weights)` loop of
`applyWeights`: if the key is a recognized dimension, clamp the summed
trait into [0,100] and lower that confidence band by 2 with floor 5;
otherwise do nothing. -/
def applyWeightsOne (s : PEState) (k : String) (w : ℚ) : PEState :=
  match parseDim k with
  | some d =>
      { s with
        ocean := s.ocean.set d (max 0 (min 100 (s.ocean.get d + w)))
        confidence := s.confidence.set d (max 5 (s.confidence.get d - 2)) }
  | none => s

/-- `applyWeights(weights)`: fold the loop body over the entries of the
weight object, in key order. -/
def applyWeights (s : PEState) (ws : List (String × ℚ)) : PEState :=
  ws.foldl (fun s kv => applyWeightsOne s kv.1 kv.2) s

/-- `applyStress(delta)`. -/
def applyStress (s : PEState) (delta : ℚ) : PEState :=
  { s with stress := max 0 (min 100 (s.stress + delta)) }

/-- One step of `addTrajectoryTags`: bump the count of `t`, appending the
key with count 1 when absent (JavaScript object insertion order). -/
def bumpTag : List (String × Nat) → String → List (String × Nat)
  | [], t => [(t, 1)]
  | (k, n) :: rest, t =>
      if k = t then (k, n + 1) :: rest else (k, n) :: bumpTag rest t

/-- `addTrajectoryTags(tags)`. -/
def addTrajectoryTags (s : PEState) (tags : List String) : PEState :=
  { s with trajectoryTags := tags.foldl bumpTag s.trajectoryTags }

/-- `deriveMBTI()`: threshold each axis at 50 (with ≥) and concatenate. -/
def deriveMBTI (s : PEState) : String :=
  (if s.ocean.E ≥ 50 then "E" else "I")
    ++ (if s.ocean.O ≥ 50 then "N" else "S")
    ++ (if s.ocean.A ≥ 50 then "F" else "T")
    ++ (if s.ocean.C ≥ 50 then "J" else "P")

/-- The nine enneagram scores, as the `scores` object of
`deriveEnneagram`: entries listed in ascending numeric key order, which
is the iteration order of `Object.entries` for integer-like keys. -/
def enneagramScores (s : PEState) : List (Nat × ℚ) :=
  let O := s.ocean.O
  let C := s.ocean.C
  let E := s.ocean.E
  let A := s.ocean.A
  let N := s.ocean.N
  [ (1, C * 1.5 + (100 - A) * 0.5 - O * 0.3)
  , (2, A * 1.5 + E * 0.5 + N * 0.3)
  , (3, C * 1.0 + E * 1.0 + (100 - A) * 0.5)
  , (4, O * 1.0 + N * 1.0 + (100 - E) * 0.5)
  , (5, O * 1.0 + (100 - E) * 1.0 + (100 - A) * 0.5)
  , (6, N * 1.0 + A * 0.5 + C * 0.5)
  , (7, O * 1.0 + E * 1.0 + (100 - N) * 0.5)
  , (8, E * 1.0 + (100 - A) * 1.0 + (100 - N) * 0.5)
  , (9, A * 1.0 + (100 - N) * 1.0 + (100 - C) * 0.3) ]

/-- Head of a stable descending sort: scan left to right keeping the
current best and replacing it only on a strictly greater score, which is
exactly the first entry of `.sort((a, b) => b[1] - a[1])` since the
JavaScript sort is stable. -/
def pickTop : List (Nat × ℚ) → Nat × ℚ → Nat × ℚ
  | [], best => best
  | p :: rest, best => pickTop rest (if p.2 > best.2 then p else best)

/-- `deriveEnneagram()` (the numeric type it returns). -/
def deriveEnneagram (s : PEState) : Nat :=
  match enneagramScores s with
  | [] => 0
  | p :: rest => (pickTop rest p).1

/-- A `Choice` record of the scenario catalogue. Optional fields of the
JSON records are `Option`s; an absent `ocean_weights` is `none` (the
source tests it with `!choice.ocean_weights`). -/
structure Choice : Type where
  id : String
  title : String
  outcome : String
  ocean_weights : Option (List (String × ℚ))
  stress_delta : Option ℚ
  trajectory_tags : Option (List String)
deriving DecidableEq, Repr

/-- `calculateChoiceProbability(choice)`: neutral 0.5 without a weight
map; otherwise alignment starts at 50, each recognized weighted
dimension contributes, an optional stress adjustment applies (an absent
`stress_delta` fails both JavaScript comparisons), and the result is
clamped to [10,90]. -/
def calculateChoiceProbability (s : PEState) (c : Choice) : ℚ :=
  match c.ocean_weights with
  | none => 0.5
  | some ws =>
      let alignment : ℚ := ws.foldl (fun al kv =>
        match parseDim kv.1 with
        | some d =>
            let weight := kv.2
            let traitValue := s.ocean.get d
            if weight > 0 then al + (traitValue - 50) * (weight / 20)
            else al + (50 - traitValue) * (|weight| / 20)
        | none => al) 50
      let alignment : ℚ :=
        match c.stress_delta with
        | some sd =>
            if sd < 0 then alignment + s.stress * 0.2
            else if sd > 10 then alignment - s.stress * 0.15
            else alignment
        | none => alignment
      max 10 (min 90 alignment)

/-- `getState()` of `PersonalityEngine` returns a shallow copy of the
four owned entities; the snapshot has exactly the shape of the state. -/
def PEState.getState (s : PEState) : PEState :=
  { ocean := s.ocean
    confidence := s.confidence
    stress := s.stress
    trajectoryTags := s.trajectoryTags }

/-- `restoreState(state)` of `PersonalityEngine`: overwrite the four
entities with copies of the snapshot fields, no validation. -/
def PEState.restoreState (_s : PEState) (snap : PEState) : PEState :=
  { ocean := snap.ocean
    confidence := snap.confidence
    stress := snap.stress
    trajectoryTags := snap.trajectoryTags }

/-! ## EventSystem -/

/-- The three life stages of the `stages` table. -/
inductive Stage : Type
| early | mid | later
deriving DecidableEq, Repr

/-- The string value stored in `currentStage`. -/
def stageName : Stage → String
  | .early => "early"
  | .mid => "mid"
  | .later => "later"

/-- A `Scenario` record of the catalogue. -/
structure Scenario : Type where
  id : String
  title : String
  life_stage : String
  age_range : Int × Int
  context_tags : List String
  choices : List Choice
  reflection_prompts : List String
deriving DecidableEq, Repr

/-- An event appended to `eventHistory` by `processChoice`.
`oceanChanges` keeps only nonzero deltas, in O,C,E,A,N key order. -/
structure EventRecord : Type where
  scenarioId : String
  title : String
  choiceId : String
  choiceTitle : String
  age : Int
  stage : Stage
  outcome : String
  oceanBefore : OceanMap
  stressBefore : ℚ
  oceanAfter : OceanMap
  stressAfter : ℚ
  oceanChanges : List (String × ℚ)
deriving DecidableEq, Repr

/-- The `for (const trait in event.oceanAfter)` loop computing the delta
map: keys iterate in insertion order O,C,E,A,N; zero deltas are dropped. -/
def oceanChangesOf (before after : OceanMap) : List (String × ℚ) :=
  [Dim.O, Dim.C, Dim.E, Dim.A, Dim.N].filterMap (fun d =>
    let change := after.get d - before.get d
    if change = 0 then none else some (dimName d, change))

/-- State owned by `EventSystem` (the well-formed core, with a loaded
scenario list; the load path with a possibly undefined list is modelled
separately below). -/
structure ESState : Type where
  scenarios : List Scenario
  currentAge : Int
  currentStage : Stage
  eventHistory : List EventRecord
  availableScenarios : List Scenario
deriving DecidableEq, Repr

/-- `updateStage()`: the stage determined by the current age. -/
def stageForAge (age : Int) : Stage :=
  if age ≤ 25 then .early else if age ≤ 50 then .mid else .later

/-- The filter of `refreshAvailableScenarios()`: a scenario passes when
its id is unused in history, its life stage is "any" or the current
stage, and the current age lies inclusively within its age range. -/
def availFrom (scenarios : List Scenario) (age : Int) (stage : Stage)
    (history : List EventRecord) : List Scenario :=
  scenarios.filter (fun sc =>
    if (history.map (·.scenarioId)).contains sc.id then false
    else if sc.life_stage ≠ "any" ∧ sc.life_stage ≠ stageName stage then false
    else if age < sc.age_range.1 ∨ age > sc.age_range.2 then false
    else true)

/-- `refreshAvailableScenarios()` as a state update. -/
def ESState.refresh (s : ESState) : ESState :=
  { s with availableScenarios :=
      availFrom s.scenarios s.currentAge s.currentStage s.eventHistory }

/-- `reset()` of `EventSystem`: age 18, stage early, history cleared,
availability recomputed against the already loaded catalogue. -/
def ESState.reset (s : ESState) : ESState :=
  ESState.refresh
    { s with currentAge := 18, currentStage := .early, eventHistory := [] }

/-- `calculateAgeAdvance(scenario, choice)`: a stage-dependent base plus
`Math.floor(Math.random() * 2)`, here the injected jitter `variation`
(which lies in {0,1} for a random source in [0,1)). The `|| 2` default
of the lookup is unreachable because the stage is always one of the
three keys. -/
def calculateAgeAdvance (s : ESState) (variation : Nat) : Int :=
  let baseAdvance : Int :=
    match s.currentStage with
    | .early => 2
    | .mid => 3
    | .later => 4
  baseAdvance + variation

/-- The combined mutable state touched by `processChoice`. -/
structure SimState : Type where
  pe : PEState
  es : ESState
deriving DecidableEq, Repr

/-- `processChoice(scenario, choice)`: snapshot before, apply the weight
map / stress delta / trajectory tags when present, snapshot after,
record only nonzero ocean deltas, append to history, advance age by the
stage base plus jitter, recompute the stage, and return the event.
`availableScenarios` is not refreshed here. -/
def processChoice (st : SimState) (sc : Scenario) (c : Choice)
    (variation : Nat) : SimState × EventRecord :=
  let oceanBefore := st.pe.ocean
  let stressBefore := st.pe.stress
  let pe1 := match c.ocean_weights with
    | some ws => applyWeights st.pe ws
    | none => st.pe
  let pe2 := match c.stress_delta with
    | some d => applyStress pe1 d
    | none => pe1
  let pe3 := match c.trajectory_tags with
    | some ts => addTrajectoryTags pe2 ts
    | none => pe2
  let event : EventRecord :=
    { scenarioId := sc.id
      title := sc.title
      choiceId := c.id
      choiceTitle := c.title
      age := st.es.currentAge
      stage := st.es.currentStage
      outcome := c.outcome
      oceanBefore := oceanBefore
      stressBefore := stressBefore
      oceanAfter := pe3.ocean
      stressAfter := pe3.stress
      oceanChanges := oceanChangesOf oceanBefore pe3.ocean }
  let ageAdvance := calculateAgeAdvance st.es variation
  let newAge := st.es.currentAge + ageAdvance
  let es1 : ESState :=
    { st.es with
      eventHistory := st.es.eventHistory ++ [event]
      currentAge := newAge
      currentStage := stageForAge newAge }
  ({ pe := pe3, es := es1 }, event)

/-- `getChoiceAlignment(choice)`: bucket the probability into the five
qualitative bands, checks in source order. -/
def getChoiceAlignment (pe : PEState) (c : Choice) : String :=
  let probability := calculateChoiceProbability pe c
  if probability > 70 then "strongly aligned"
  else if probability > 55 then "somewhat aligned"
  else if probability < 30 then "against your nature"
  else if probability < 45 then "a stretch for you"
  else "neutral"

/-- `shouldEndSimulation()`: true at age 75 or beyond; otherwise refresh
availability and end when it is empty with at least five history
entries. -/
def shouldEndSimulation (s : ESState) : Bool :=
  if s.currentAge ≥ 75 then true
  else
    let avail := availFrom s.scenarios s.currentAge s.currentStage s.eventHistory
    if avail.length = 0 ∧ s.eventHistory.length ≥ 5 then true
    else false

/-- The snapshot produced by `getState()` of `EventSystem`. -/
structure ESSnapshot : Type where
  currentAge : Int
  currentStage : Stage
  eventHistory : List EventRecord
deriving DecidableEq, Repr

def ESState.getState (s : ESState) : ESSnapshot :=
  { currentAge := s.currentAge
    currentStage := s.currentStage
    eventHistory := s.eventHistory }

/-- `restoreState(state)` of `EventSystem`: copy in age, stage and
history, then recompute availability via `refreshAvailableScenarios()`. -/
def ESState.restoreState (s : ESState) (snap : ESSnapshot) : ESState :=
  ESState.refresh
    { s with
      currentAge := snap.currentAge
      currentStage := snap.currentStage
      eventHistory := snap.eventHistory }

/-! ## The load path

`loadScenarios()` awaits a fetch and a JSON parse inside `try`, then
assigns the three document fields and refreshes availability. The
awaited document is modelled as an input: `none` when the fetch or the
parse throws (source unreachable or unparsable), `some data` when a
document was parsed. A parsed document may lack the `scenarios` array
(`data.scenarios` undefined), in which case `this.scenarios` becomes
undefined and `refreshAvailableScenarios` throws on `.filter`, caught
by the same `try` after the assignments already happened. -/

/-- A parsed catalogue document; each top-level field may be missing. -/
structure RawCatalog : Type where
  scenarios : Option (List Scenario)
  trajectory_descriptions : Option (List (String × String))
  global_modifiers : Option (List (String × String))
deriving DecidableEq, Repr

/-- `EventSystem` state as seen by the load path, where `scenarios` and
the two auxiliary tables can be undefined. -/
structure LoadState : Type where
  scenarios : Option (List Scenario)
  trajectoryDescriptions : Option (List (String × String))
  globalModifiers : Option (List (String × String))
  currentAge : Int
  currentStage : Stage
  eventHistory : List EventRecord
  availableScenarios : List Scenario
deriving DecidableEq, Repr

/-- `loadScenarios()`: returns the boolean reported to the caller and
the state after the call. -/
def loadScenarios (st : LoadState) (fetched : Option RawCatalog) :
    Bool × LoadState :=
  match fetched with
  | none => (false, st)
  | some data =>
      let st1 : LoadState :=
        { st with
          scenarios := data.scenarios
          trajectoryDescriptions := data.trajectory_descriptions
          globalModifiers := data.global_modifiers }
      match data.scenarios with
      | some l =>
          let avail := availFrom l st1.currentAge st1.currentStage st1.eventHistory
          (true, { st1 with availableScenarios := avail })
      | none => (false, st1)

/-! ## Theorems -/

/-! ### Helper lemmas about dimensions and applyWeights -/

lemma OceanMap.get_set_same (m : OceanMap) (d : Dim) (v : ℚ) :
    (m.set d v).get d = v := by
  cases d <;> rfl

lemma OceanMap.get_set_other (m : OceanMap) (d e : Dim) (v : ℚ) (h : d ≠ e) :
    (m.set d v).get e = m.get e := by
  cases d <;> cases e <;> first | exact absurd rfl h | rfl

lemma parseDim_dimName (d : Dim) : parseDim (dimName d) = some d := by
  cases d <;> rfl

lemma parseDim_name {k : String} {d : Dim} (h : parseDim k = some d) :
    k = dimName d := by
  unfold parseDim at h
  split_ifs at h <;>
    first
      | exact Option.noConfusion h
      | (obtain rfl := Option.some.inj h; simp_all [dimName])

lemma dimName_injective {d e : Dim} (h : dimName d = dimName e) : d = e := by
  cases d <;> cases e <;> simp_all [dimName]

lemma applyWeightsOne_stress_tags (s : PEState) (k : String) (w : ℚ) :
    (applyWeightsOne s k w).stress = s.stress ∧
    (applyWeightsOne s k w).trajectoryTags = s.trajectoryTags := by
  unfold applyWeightsOne
  split <;> exact ⟨rfl, rfl⟩

lemma applyWeightsOne_unrecognized (s : PEState) (k : String) (w : ℚ)
    (h : parseDim k = none) : applyWeightsOne s k w = s := by
  simp only [applyWeightsOne, h]

lemma applyWeightsOne_other (s : PEState) (k : String) (w : ℚ) (d : Dim)
    (hk : k ≠ dimName d) :
    (applyWeightsOne s k w).ocean.get d = s.ocean.get d ∧
    (applyWeightsOne s k w).confidence.get d = s.confidence.get d := by
  cases hp : parseDim k with
  | none => rw [applyWeightsOne_unrecognized s k w hp]; exact ⟨rfl, rfl⟩
  | some e =>
      have he : k = dimName e := parseDim_name hp
      have hne : e ≠ d := fun hh => hk (hh ▸ he)
      simp only [applyWeightsOne, hp]
      exact ⟨OceanMap.get_set_other _ _ _ _ hne, OceanMap.get_set_other _ _ _ _ hne⟩

lemma applyWeightsOne_dimName (s : PEState) (d : Dim) (w : ℚ) :
    (applyWeightsOne s (dimName d) w).ocean.get d
        = max 0 (min 100 (s.ocean.get d + w)) ∧
    (applyWeightsOne s (dimName d) w).confidence.get d
        = max 5 (s.confidence.get d - 2) := by
  simp only [applyWeightsOne, parseDim_dimName]
  exact ⟨OceanMap.get_set_same _ _ _, OceanMap.get_set_same _ _ _⟩

lemma applyWeights_cons (s : PEState) (kv : String × ℚ) (rest : List (String × ℚ)) :
    applyWeights s (kv :: rest) = applyWeights (applyWeightsOne s kv.1 kv.2) rest := rfl

lemma applyWeights_stress_tags (s : PEState) (ws : List (String × ℚ)) :
    (applyWeights s ws).stress = s.stress ∧
    (applyWeights s ws).trajectoryTags = s.trajectoryTags := by
  induction ws generalizing s with
  | nil => exact ⟨rfl, rfl⟩
  | cons kv rest ih =>
      rw [applyWeights_cons]
      have h1 := applyWeightsOne_stress_tags s kv.1 kv.2
      have h2 := ih (applyWeightsOne s kv.1 kv.2)
      exact ⟨h2.1.trans h1.1, h2.2.trans h1.2⟩

lemma applyWeights_absent (s : PEState) (ws : List (String × ℚ)) (d : Dim)
    (h : dimName d ∉ ws.map Prod.fst) :
    (applyWeights s ws).ocean.get d = s.ocean.get d ∧
    (applyWeights s ws).confidence.get d = s.confidence.get d := by
  induction ws generalizing s with
  | nil => exact ⟨rfl, rfl⟩
  | cons kv rest ih =>
      rw [applyWeights_cons]
      simp only [List.map_cons, List.mem_cons, not_or] at h
      have ho := applyWeightsOne_other s kv.1 kv.2 d (Ne.symm h.1)
      have hr := ih (applyWeightsOne s kv.1 kv.2) h.2
      exact ⟨hr.1.trans ho.1, hr.2.trans ho.2⟩

lemma applyWeights_unrecognized (s : PEState) (ws : List (String × ℚ))
    (h : ∀ kv ∈ ws, parseDim kv.1 = none) : applyWeights s ws = s := by
  induction ws generalizing s with
  | nil => rfl
  | cons kv rest ih =>
      rw [applyWeights_cons,
        applyWeightsOne_unrecognized s kv.1 kv.2 (h kv (List.mem_cons_self _ _))]
      exact ih s fun p hp => h p (List.mem_cons_of_mem _ hp)

lemma applyWeights_present (s : PEState) (ws : List (String × ℚ)) (d : Dim) (w : ℚ)
    (hnd : (ws.map Prod.fst).Nodup) (hmem : (dimName d, w) ∈ ws) :
    (applyWeights s ws).ocean.get d = max 0 (min 100 (s.ocean.get d + w)) ∧
    (applyWeights s ws).confidence.get d = max 5 (s.confidence.get d - 2) := by
  induction ws generalizing s with
  | nil => cases hmem
  | cons kv rest ih =>
      rw [applyWeights_cons]
      simp only [List.map_cons, List.nodup_cons] at hnd
      rcases List.mem_cons.mp hmem with h | h
      · have hk : kv.1 = dimName d := by rw [← h]
        have hw : kv.2 = w := by rw [← h]
        have habs : dimName d ∉ rest.map Prod.fst := hk ▸ hnd.1
        have hstep := applyWeightsOne_dimName s d w
        have hrest := applyWeights_absent (applyWeightsOne s (dimName d) w) rest d habs
        rw [hk, hw]
        exact ⟨hrest.1.trans hstep.1, hrest.2.trans hstep.2⟩
      · have hkey : dimName d ∈ rest.map Prod.fst := by
          simpa using List.mem_map_of_mem Prod.fst h
        have hk : kv.1 ≠ dimName d := fun he => hnd.1 (he ▸ hkey)
        have ho := applyWeightsOne_other s kv.1 kv.2 d hk
        have hr := ih (applyWeightsOne s kv.1 kv.2) hnd.2 h
        exact ⟨hr.1.trans (by rw [ho.1]), hr.2.trans (by rw [ho.2])⟩

/-- All traits within [0,100] and all confidence bands within [5,100]. -/
def PEState.InRange (s : PEState) : Prop :=
  ∀ d : Dim, 0 ≤ s.ocean.get d ∧ s.ocean.get d ≤ 100 ∧
    5 ≤ s.confidence.get d ∧ s.confidence.get d ≤ 100

lemma applyWeightsOne_inRange (s : PEState) (k : String) (w : ℚ)
    (h : s.InRange) : (applyWeightsOne s k w).InRange := by
  intro d
  cases hp : parseDim k with
  | none => rw [applyWeightsOne_unrecognized s k w hp]; exact h d
  | some e =>
      have hk := parseDim_name hp
      subst hk
      by_cases hde : e = d
      · subst hde
        have hstep := applyWeightsOne_dimName s e w
        rw [hstep.1, hstep.2]
        refine ⟨le_max_left _ _, max_le (by norm_num) (min_le_left _ _),
          le_max_left _ _, max_le (by norm_num) ?_⟩
        have := (h e).2.2.2
        linarith
      · have ho := applyWeightsOne_other s (dimName e) w d
          (fun hh => hde (dimName_injective hh))
        rw [ho.1, ho.2]
        exact h d

lemma applyWeights_inRange (s : PEState) (ws : List (String × ℚ))
    (h : s.InRange) : (applyWeights s ws).InRange := by
  induction ws generalizing s with
  | nil => exact h
  | cons kv rest ih =>
      rw [applyWeights_cons]
      exact ih _ (applyWeightsOne_inRange s kv.1 kv.2 h)

lemma initialPEState_inRange : PEState.InRange initialPEState := by
  intro d
  cases d <;> refine ⟨?_, ?_, ?_, ?_⟩ <;>
    norm_num [initialPEState, OceanMap.get]

/-- C1: starting from the initial state (all traits 50, all confidence
bands 30), any sequence of applyWeights calls with arbitrary weight
maps keeps every trait dimension within [0,100] and every confidence
band within [5,100]. -/
theorem applyWeights_sequence_invariant (wss : List (List (String × ℚ))) :
    ∀ d : Dim,
      0 ≤ (wss.foldl applyWeights initialPEState).ocean.get d ∧
      (wss.foldl applyWeights initialPEState).ocean.get d ≤ 100 ∧
      5 ≤ (wss.foldl applyWeights initialPEState).confidence.get d ∧
      (wss.foldl applyWeights initialPEState).confidence.get d ≤ 100 := by
  have main : ∀ (wss : List (List (String × ℚ))) (s : PEState), s.InRange →
      (wss.foldl applyWeights s).InRange := by
    intro wss
    induction wss with
    | nil => intro s hs; exact hs
    | cons ws rest ih =>
        intro s hs
        exact ih _ (applyWeights_inRange s ws hs)
  exact main wss initialPEState initialPEState_inRange

/-- C8: applyWeights silently ignores unrecognized keys (a map of only
unrecognized keys leaves the state literally unchanged), leaves every
dimension absent from the map untouched, updates each recognized
present dimension by its clamped delta with a confidence decrease of 2
floored at 5, and never touches stress or trajectory tag counts. -/
theorem applyWeights_frame (s : PEState) (ws : List (String × ℚ)) :
    (applyWeights s ws).stress = s.stress ∧
    (applyWeights s ws).trajectoryTags = s.trajectoryTags ∧
    ((∀ kv ∈ ws, parseDim kv.1 = none) → applyWeights s ws = s) ∧
    (∀ d : Dim, dimName d ∉ ws.map Prod.fst →
        (applyWeights s ws).ocean.get d = s.ocean.get d ∧
        (applyWeights s ws).confidence.get d = s.confidence.get d) ∧
    (∀ (d : Dim) (w : ℚ), (ws.map Prod.fst).Nodup → (dimName d, w) ∈ ws →
        (applyWeights s ws).ocean.get d = max 0 (min 100 (s.ocean.get d + w)) ∧
        (applyWeights s ws).confidence.get d = max 5 (s.confidence.get d - 2)) :=
  ⟨(applyWeights_stress_tags s ws).1,
   (applyWeights_stress_tags s ws).2,
   applyWeights_unrecognized s ws,
   fun d hd => applyWeights_absent s ws d hd,
   fun d w hnd hmem => applyWeights_present s ws d w hnd hmem⟩

/-- Witness for C8 on the concrete map with entries C:+15 and an
unrecognized key zz: C is clamped-updated with its confidence lowered
to 28, O is untouched, and stress is untouched. -/
theorem applyWeights_frame_witness :
    (applyWeights initialPEState [("C", 15), ("zz", 3)]).ocean.get .C
        = max 0 (min 100 (initialPEState.ocean.get .C + 15)) ∧
    (applyWeights initialPEState [("C", 15), ("zz", 3)]).ocean.get .O
        = initialPEState.ocean.get .O ∧
    (applyWeights initialPEState [("C", 15), ("zz", 3)]).stress
        = initialPEState.stress :=
  ⟨((applyWeights_frame initialPEState [("C", 15), ("zz", 3)]).2.2.2.2 .C 15
      (by decide) (by decide)).1,
   ((applyWeights_frame initialPEState [("C", 15), ("zz", 3)]).2.2.2.1 .O
      (by decide)).1,
   (applyWeights_frame initialPEState [("C", 15), ("zz", 3)]).1⟩

/-! ### Enneagram selection -/

lemma pickTop_ge_init (l : List (Nat × ℚ)) (b : Nat × ℚ) :
    b.2 ≤ (pickTop l b).2 := by
  induction l generalizing b with
  | nil => exact le_refl _
  | cons p rest ih =>
      show b.2 ≤ (pickTop rest (if p.2 > b.2 then p else b)).2
      by_cases hp : p.2 > b.2
      · simp only [if_pos hp]
        exact le_of_lt (lt_of_lt_of_le hp (ih p))
      · simp only [if_neg hp]
        exact ih b

/-- Scanning for the strictly-greatest score returns the first entry
attaining the maximum: every entry scores no more, every tie has a
type identifier no smaller, and the result is one of the entries.
Requires the type identifiers to be strictly increasing along the
list, as they are in the scores table. -/
lemma pickTop_spec (l : List (Nat × ℚ)) (b : Nat × ℚ)
    (hp : List.Pairwise (fun p q => p.1 < q.1) (b :: l)) :
    pickTop l b ∈ b :: l ∧
    (∀ p ∈ b :: l, p.2 ≤ (pickTop l b).2) ∧
    (∀ p ∈ b :: l, p.2 = (pickTop l b).2 → (pickTop l b).1 ≤ p.1) := by
  induction l generalizing b with
  | nil =>
      refine ⟨List.mem_singleton_self _, ?_, ?_⟩
      · intro p hp'
        rw [List.mem_singleton.mp hp']
        exact le_refl _
      · intro p hp' _
        rw [List.mem_singleton.mp hp']
        exact le_refl _
  | cons q rest ih =>
      rw [List.pairwise_cons] at hp
      have hq : List.Pairwise (fun p q => p.1 < q.1) (q :: rest) := hp.2
      have hred : pickTop (q :: rest) b
          = pickTop rest (if q.2 > b.2 then q else b) := rfl
      by_cases hgt : q.2 > b.2
      · rw [hred, if_pos hgt]
        obtain ⟨hmem, hle, htie⟩ := ih q hq
        refine ⟨List.mem_cons_of_mem b hmem, ?_, ?_⟩
        · intro p hp'
          rcases List.mem_cons.mp hp' with h | h
          · rw [h]
            exact le_of_lt (lt_of_lt_of_le hgt (pickTop_ge_init rest q))
          · exact hle p h
        · intro p hp' heq
          rcases List.mem_cons.mp hp' with h | h
          · exfalso
            rw [h] at heq
            exact absurd (heq ▸ lt_of_lt_of_le hgt (pickTop_ge_init rest q))
              (lt_irrefl _)
          · exact htie p h heq
      · rw [hred, if_neg hgt]
        have hb : List.Pairwise (fun p q => p.1 < q.1) (b :: rest) :=
          List.pairwise_cons.mpr
            ⟨fun p hp' => hp.1 p (List.mem_cons_of_mem q hp'),
             (List.pairwise_cons.mp hq).2⟩
        obtain ⟨hmem, hle, htie⟩ := ih b hb
        have hqle : q.2 ≤ (pickTop rest b).2 :=
          le_trans (le_of_not_lt hgt) (pickTop_ge_init rest b)
        refine ⟨?_, ?_, ?_⟩
        · rcases List.mem_cons.mp hmem with h | h
          · rw [h]
            exact List.mem_cons_self _ _
          · exact List.mem_cons_of_mem b (List.mem_cons_of_mem q h)
        · intro p hp'
          rcases List.mem_cons.mp hp' with h | h
          · exact h ▸ hle b (List.mem_cons_self _ _)
          · rcases List.mem_cons.mp h with h2 | h2
            · exact h2 ▸ hqle
            · exact hle p (List.mem_cons_of_mem b h2)
        · intro p hp' heq
          rcases List.mem_cons.mp hp' with h | h
          · exact h ▸ htie b (List.mem_cons_self _ _) (h ▸ heq)
          · rcases List.mem_cons.mp h with h2 | h2
            · rw [h2] at heq
              rw [h2]
              rcases List.mem_cons.mp hmem with hr | hr
              · rw [hr]
                exact le_of_lt (hp.1 q (List.mem_cons_self _ _))
              · exfalso
                have hbq : b.2 = (pickTop rest b).2 :=
                  le_antisymm (pickTop_ge_init rest b)
                    (heq ▸ le_of_not_lt hgt)
                have hba := htie b (List.mem_cons_self _ _) hbq
                have hlt := (List.pairwise_cons.mp hb).1 (pickTop rest b) hr
                omega
            · exact htie p (List.mem_cons_of_mem b h2) heq

/-- The nine score formulas exactly as the specification table writes
them, for refinement comparison with the scores object of the source. -/
def specTableScore (m : OceanMap) : Nat → ℚ
  | 1 => 1.5 * m.C + 0.5 * (100 - m.A) - 0.3 * m.O
  | 2 => 1.5 * m.A + 0.5 * m.E + 0.3 * m.N
  | 3 => 1.0 * m.C + 1.0 * m.E + 0.5 * (100 - m.A)
  | 4 => 1.0 * m.O + 1.0 * m.N + 0.5 * (100 - m.E)
  | 5 => 1.0 * m.O + 1.0 * (100 - m.E) + 0.5 * (100 - m.A)
  | 6 => 1.0 * m.N + 0.5 * m.A + 0.5 * m.C
  | 7 => 1.0 * m.O + 1.0 * m.E + 0.5 * (100 - m.N)
  | 8 => 1.0 * m.E + 1.0 * (100 - m.A) + 0.5 * (100 - m.N)
  | 9 => 1.0 * m.A + 1.0 * (100 - m.N) + 0.3 * (100 - m.C)
  | _ => 0

lemma enneagramScores_pairwise (s : PEState) :
    List.Pairwise (fun p q : Nat × ℚ => p.1 < q.1) (enneagramScores s) := by
  have hmap : (enneagramScores s).map Prod.fst = [1, 2, 3, 4, 5, 6, 7, 8, 9] := rfl
  have : List.Pairwise (· < ·) ((enneagramScores s).map Prod.fst) := by
    rw [hmap]
    decide
  exact (List.pairwise_map.mp this)

/-- C4: the nine enneagram scores are exactly the weighted linear
combinations of the specification table, and deriveEnneagram returns a
type whose score is maximal, with ties resolved to the smallest numeric
type identifier. -/
theorem deriveEnneagram_argmax (s : PEState) :
    (∀ p ∈ enneagramScores s, p.2 = specTableScore s.ocean p.1) ∧
    ∃ q : ℚ, (deriveEnneagram s, q) ∈ enneagramScores s ∧
      (∀ p ∈ enneagramScores s, p.2 ≤ q) ∧
      (∀ p ∈ enneagramScores s, p.2 = q → deriveEnneagram s ≤ p.1) := by
  constructor
  · intro p hp
    simp only [enneagramScores, List.mem_cons, List.not_mem_nil, or_false] at hp
    rcases hp with h | h | h | h | h | h | h | h | h <;>
      (subst h; simp only [specTableScore]; ring)
  · have hpw := enneagramScores_pairwise s
    rcases hs : enneagramScores s with _ | ⟨b, rest⟩
    · exact absurd (congrArg List.length hs) (by simp [enneagramScores])
    · rw [hs] at hpw
      obtain ⟨hmem, hle, htie⟩ := pickTop_spec rest b hpw
      have hd : deriveEnneagram s = (pickTop rest b).1 := by
        simp only [deriveEnneagram, hs]
      refine ⟨(pickTop rest b).2, ?_, ?_, ?_⟩
      · rw [hd]
        exact hmem
      · intro p hp'
        exact hle p hp'
      · intro p hp' heq
        rw [hd]
        exact htie p hp' heq

/-- Witness for C4: at the initial all-50 vector, types 3,4,5,7,8 tie
at the maximal score 125 and the engine returns 3, whose table score
the theorem equates with the stored score. -/
theorem deriveEnneagram_argmax_witness :
    ((1 : Nat), (85 : ℚ)) ∈ enneagramScores initialPEState ∧
    (85 : ℚ) = specTableScore initialPEState.ocean 1 ∧
    deriveEnneagram initialPEState = 3 :=
  ⟨by norm_num [enneagramScores, initialPEState],
   (deriveEnneagram_argmax initialPEState).1 (1, 85)
     (by norm_num [enneagramScores, initialPEState]),
   by norm_num [deriveEnneagram, enneagramScores, initialPEState, pickTop]⟩

/-- The trait vector of the first `deriveMBTI` example of the spec:
O=60, C=40, E=70, A=30, N=50 (confidence, stress and tags as initial,
which `deriveMBTI` never reads). -/
def mbtiExampleState : PEState :=
  { initialPEState with ocean := ⟨60, 40, 70, 30, 50⟩ }

/-- C2 counterexample: on the vector O=60, C=40, E=70, A=30, N=50 the
engine returns "ENTP" (Conscientiousness 40 is below 50, so the last
axis letter is P), not "ENTJ" as claimed. -/
theorem deriveMBTI_entj_counterexample :
    deriveMBTI mbtiExampleState = "ENTP" ∧
    deriveMBTI mbtiExampleState ≠ "ENTJ" := by
  constructor
  · rfl
  · decide

/-- C2 (amended): deriveMBTI is a pure deterministic function of the
current trait vector thresholding each axis at 50 with ≥; for the
vector O=60, C=40, E=70, A=30, N=50 it yields "ENTP", and for the
all-midpoint vector it yields "ENFJ". -/
theorem deriveMBTI_amended :
    (∀ s t : PEState, s.ocean = t.ocean → deriveMBTI s = deriveMBTI t) ∧
    (∀ s : PEState,
      deriveMBTI s =
        (if 50 ≤ s.ocean.E then "E" else "I")
          ++ (if 50 ≤ s.ocean.O then "N" else "S")
          ++ (if 50 ≤ s.ocean.A then "F" else "T")
          ++ (if 50 ≤ s.ocean.C then "J" else "P")) ∧
    deriveMBTI mbtiExampleState = "ENTP" ∧
    deriveMBTI initialPEState = "ENFJ" := by
  refine ⟨?_, ?_, rfl, rfl⟩
  · intro s t h
    simp only [deriveMBTI, h]
  · intro s
    simp only [deriveMBTI, ge_iff_le]

/-- Witness for the amended C2 theorem at concrete states. -/
theorem deriveMBTI_amended_witness :
    deriveMBTI initialPEState = deriveMBTI (PEState.reset mbtiExampleState) :=
  deriveMBTI_amended.1 initialPEState (PEState.reset mbtiExampleState) rfl

/-- C3: calculateChoiceProbability is exactly 0.5 for a choice with no
ocean_weights map, and for every choice that does carry a weight map
the result lies within [10,90]. -/
theorem calculateChoiceProbability_claim :
    (∀ (pe : PEState) (c : Choice), c.ocean_weights = none →
        calculateChoiceProbability pe c = 0.5) ∧
    (∀ (pe : PEState) (c : Choice) (ws : List (String × ℚ)),
        c.ocean_weights = some ws →
        10 ≤ calculateChoiceProbability pe c ∧
        calculateChoiceProbability pe c ≤ 90) := by
  constructor
  · intro pe c h
    simp only [calculateChoiceProbability, h]
  · intro pe c ws h
    simp only [calculateChoiceProbability, h]
    constructor
    · exact le_max_left _ _
    · exact max_le (by norm_num) (min_le_left _ _)

/-- Witness for C3 at concrete choices: a choice with no weight map
scores 0.5, and one with an extreme weight map stays within [10,90]. -/
theorem calculateChoiceProbability_claim_witness :
    calculateChoiceProbability initialPEState ⟨"a", "t", "o", none, none, none⟩ = 0.5 ∧
    (10 ≤ calculateChoiceProbability initialPEState
        ⟨"a", "t", "o", some [("C", 1000), ("N", -1000)], some (-10), none⟩ ∧
     calculateChoiceProbability initialPEState
        ⟨"a", "t", "o", some [("C", 1000), ("N", -1000)], some (-10), none⟩ ≤ 90) :=
  ⟨calculateChoiceProbability_claim.1 initialPEState _ rfl,
   calculateChoiceProbability_claim.2 initialPEState _ [("C", 1000), ("N", -1000)] rfl⟩

/-- C10: a choice carrying no ocean_weights map gets the raw probability
0.5, which falls through the >70 and >55 checks and hits the <30 band,
so getChoiceAlignment answers "against your nature". -/
theorem getChoiceAlignment_noWeights (pe : PEState) (c : Choice)
    (h : c.ocean_weights = none) :
    calculateChoiceProbability pe c = 0.5 ∧
    getChoiceAlignment pe c = "against your nature" := by
  have hp : calculateChoiceProbability pe c = 0.5 := by
    simp only [calculateChoiceProbability, h]
  refine ⟨hp, ?_⟩
  simp only [getChoiceAlignment, hp]
  norm_num

/-- Witness for C10 at a concrete weightless choice. -/
theorem getChoiceAlignment_noWeights_witness :
    calculateChoiceProbability initialPEState ⟨"b", "t", "o", none, some 5, none⟩ = 0.5 ∧
    getChoiceAlignment initialPEState ⟨"b", "t", "o", none, some 5, none⟩ =
      "against your nature" :=
  getChoiceAlignment_noWeights initialPEState ⟨"b", "t", "o", none, some 5, none⟩ rfl

/-! ### Event processing and simulation lifecycle -/

/-- The session start state for the life simulation: a freshly reset
`EventSystem` over a loaded catalogue. -/
def initialESState (scenarios : List Scenario) : ESState :=
  ESState.reset
    { scenarios := scenarios, currentAge := 18, currentStage := .early,
      eventHistory := [], availableScenarios := [] }

/-- The combined session start state: fresh personality engine plus a
fresh event system over a loaded catalogue. -/
def initialSimState (scenarios : List Scenario) : SimState :=
  { pe := initialPEState, es := initialESState scenarios }

lemma parseDim_C : parseDim "C" = some Dim.C := rfl

/-- C5: from the initial state, processing any choice that carries
stress_delta -10 and ocean_weights {C:+15} lowers stress (to a value no
greater than the previous 30), raises C by exactly 15, advances age by
2 or 3 depending on the jitter, and produces a one-entry history whose
event records the delta map with exactly the single key C. -/
theorem processChoice_endToEnd (scenarios : List Scenario) (sc : Scenario)
    (c : Choice) (variation : Nat)
    (hw : c.ocean_weights = some [("C", 15)])
    (hsd : c.stress_delta = some (-10))
    (hv : variation ≤ 1) :
    (processChoice (initialSimState scenarios) sc c variation).1.pe.stress
        ≤ (initialSimState scenarios).pe.stress ∧
    (processChoice (initialSimState scenarios) sc c variation).1.pe.ocean.C
        = (initialSimState scenarios).pe.ocean.C + 15 ∧
    ((processChoice (initialSimState scenarios) sc c variation).1.es.currentAge
        = (initialSimState scenarios).es.currentAge + 2 ∨
     (processChoice (initialSimState scenarios) sc c variation).1.es.currentAge
        = (initialSimState scenarios).es.currentAge + 3) ∧
    (processChoice (initialSimState scenarios) sc c variation).1.es.eventHistory.length
        = 1 ∧
    (processChoice (initialSimState scenarios) sc c variation).2.oceanChanges
        = [("C", 15)] := by
  have hstress : (processChoice (initialSimState scenarios) sc c variation).1.pe.stress
      = 20 := by
    rcases hts : c.trajectory_tags with _ | ts <;>
      simp only [processChoice, hw, hsd, hts, addTrajectoryTags,
        initialSimState] <;>
      norm_num [applyStress, applyWeights, applyWeightsOne, parseDim_C,
        initialPEState, OceanMap.get, OceanMap.set, min_def, max_def]
  have hC : (processChoice (initialSimState scenarios) sc c variation).1.pe.ocean.C
      = 65 := by
    rcases hts : c.trajectory_tags with _ | ts <;>
      simp only [processChoice, hw, hsd, hts, addTrajectoryTags,
        initialSimState] <;>
      norm_num [applyStress, applyWeights, applyWeightsOne, parseDim_C,
        initialPEState, OceanMap.get, OceanMap.set, min_def, max_def]
  have hage : (processChoice (initialSimState scenarios) sc c variation).1.es.currentAge
      = 18 + (2 + (variation : Int)) := by
    rcases hts : c.trajectory_tags with _ | ts <;>
      simp only [processChoice, hw, hsd, hts, initialSimState, initialESState,
        ESState.reset, ESState.refresh, calculateAgeAdvance]
  have hlen : (processChoice (initialSimState scenarios) sc c variation).1.es.eventHistory.length
      = 1 := by
    rcases hts : c.trajectory_tags with _ | ts <;>
      simp only [processChoice, hw, hsd, hts, initialSimState, initialESState,
        ESState.reset, ESState.refresh, List.nil_append, List.length_singleton]
  have hchg : (processChoice (initialSimState scenarios) sc c variation).2.oceanChanges
      = [("C", 15)] := by
    rcases hts : c.trajectory_tags with _ | ts <;>
      simp only [processChoice, hw, hsd, hts, addTrajectoryTags,
        initialSimState] <;>
      norm_num [oceanChangesOf, dimName, applyStress, applyWeights,
        applyWeightsOne, parseDim_C, initialPEState, OceanMap.get,
        OceanMap.set, min_def, max_def, List.filterMap_cons, List.filterMap_nil]
  refine ⟨?_, ?_, ?_, hlen, hchg⟩
  · rw [hstress]
    norm_num [initialSimState, initialPEState]
  · rw [hC]
    norm_num [initialSimState, initialPEState, OceanMap.get]
  · rw [hage]
    have h18 : (initialSimState scenarios).es.currentAge = 18 := rfl
    rw [h18]
    interval_cases variation
    · left; norm_num
    · right; norm_num

/-- Concrete scenario and choice used by witnesses. -/
def sampleScenario : Scenario :=
  { id := "s1", title := "t1", life_stage := "any", age_range := (0, 100),
    context_tags := [], choices := [], reflection_prompts := [] }

/-- Concrete choice carrying stress_delta -10 and ocean_weights C:+15. -/
def sampleChoice : Choice :=
  { id := "c1", title := "ct1", outcome := "o1",
    ocean_weights := some [("C", 15)], stress_delta := some (-10),
    trajectory_tags := none }

/-- Witness for C5 at the concrete sample scenario and choice with
jitter 0. -/
theorem processChoice_endToEnd_witness :
    (processChoice (initialSimState []) sampleScenario sampleChoice 0).1.pe.stress
        ≤ (initialSimState []).pe.stress ∧
    (processChoice (initialSimState []) sampleScenario sampleChoice 0).1.pe.ocean.C
        = (initialSimState []).pe.ocean.C + 15 ∧
    ((processChoice (initialSimState []) sampleScenario sampleChoice 0).1.es.currentAge
        = (initialSimState []).es.currentAge + 2 ∨
     (processChoice (initialSimState []) sampleScenario sampleChoice 0).1.es.currentAge
        = (initialSimState []).es.currentAge + 3) ∧
    (processChoice (initialSimState []) sampleScenario sampleChoice 0).1.es.eventHistory.length
        = 1 ∧
    (processChoice (initialSimState []) sampleScenario sampleChoice 0).2.oceanChanges
        = [("C", 15)] :=
  processChoice_endToEnd [] sampleScenario sampleChoice 0 rfl rfl (by norm_num)

/-- C6: getState followed by restoreState on a freshly reset engine
reproduces the observable state of each engine independently: the full
personality state for the trait engine, and age, stage and history for
the event system, whose availability is recomputed from the restored
fields rather than trusted. -/
theorem getState_restoreState_roundTrip (p q : PEState) (e f : ESState)
    (hsc : f.scenarios = e.scenarios) :
    PEState.restoreState (PEState.reset q) (PEState.getState p) = p ∧
    (ESState.restoreState (ESState.reset f) (ESState.getState e)).currentAge
        = e.currentAge ∧
    (ESState.restoreState (ESState.reset f) (ESState.getState e)).currentStage
        = e.currentStage ∧
    (ESState.restoreState (ESState.reset f) (ESState.getState e)).eventHistory
        = e.eventHistory ∧
    (ESState.restoreState (ESState.reset f) (ESState.getState e)).availableScenarios
        = availFrom e.scenarios e.currentAge e.currentStage e.eventHistory := by
  refine ⟨rfl, rfl, rfl, rfl, ?_⟩
  simp only [ESState.restoreState, ESState.reset, ESState.refresh,
    ESState.getState, hsc]

/-- Witness for C6 at concrete engine states. -/
theorem getState_restoreState_roundTrip_witness :
    PEState.restoreState (PEState.reset initialPEState)
        (PEState.getState mbtiExampleState) = mbtiExampleState ∧
    (ESState.restoreState (ESState.reset (initialESState [sampleScenario]))
        (ESState.getState (initialESState [sampleScenario]))).currentAge
        = (initialESState [sampleScenario]).currentAge :=
  ⟨(getState_restoreState_roundTrip mbtiExampleState initialPEState
      (initialESState [sampleScenario]) (initialESState [sampleScenario]) rfl).1,
   (getState_restoreState_roundTrip mbtiExampleState initialPEState
      (initialESState [sampleScenario]) (initialESState [sampleScenario]) rfl).2.1⟩

/-- C7: shouldEndSimulation is true exactly when age is at least 75, or
the recomputed availability is empty while the history holds at least
five events; with the particular consequences at history lengths 4 and
5 under empty availability, and unconditionally at age 75 and beyond. -/
theorem shouldEndSimulation_characterization :
    (∀ s : ESState, shouldEndSimulation s = true ↔
        (75 ≤ s.currentAge ∨
          (availFrom s.scenarios s.currentAge s.currentStage s.eventHistory = [] ∧
           5 ≤ s.eventHistory.length))) ∧
    (∀ s : ESState, s.currentAge < 75 → s.eventHistory.length = 4 →
        availFrom s.scenarios s.currentAge s.currentStage s.eventHistory = [] →
        shouldEndSimulation s = false) ∧
    (∀ s : ESState, s.eventHistory.length = 5 →
        availFrom s.scenarios s.currentAge s.currentStage s.eventHistory = [] →
        shouldEndSimulation s = true) ∧
    (∀ s : ESState, 75 ≤ s.currentAge → shouldEndSimulation s = true) := by
  have hiff : ∀ s : ESState, shouldEndSimulation s = true ↔
      (75 ≤ s.currentAge ∨
        (availFrom s.scenarios s.currentAge s.currentStage s.eventHistory = [] ∧
         5 ≤ s.eventHistory.length)) := by
    intro s
    simp only [shouldEndSimulation]
    split_ifs with h1 h2
    · simp only [true_iff]
      exact Or.inl h1
    · simp only [true_iff]
      exact Or.inr ⟨List.length_eq_zero.mp h2.1, h2.2⟩
    · constructor
      · intro h
        exact absurd h (by simp)
      · rintro (h | ⟨ha, hl⟩)
        · exact absurd h h1
        · exact absurd ⟨by rw [ha]; rfl, hl⟩ h2
  refine ⟨hiff, ?_, ?_, ?_⟩
  · intro s hage hlen havail
    cases hb : shouldEndSimulation s with
    | false => rfl
    | true =>
        rcases (hiff s).mp hb with h | ⟨_, hl⟩
        · omega
        · omega
  · intro s hlen havail
    exact (hiff s).mpr (Or.inr ⟨havail, by omega⟩)
  · intro s hage
    exact (hiff s).mpr (Or.inl hage)

/-- Dummy event record used to build concrete histories in witnesses. -/
def dummyEvent : EventRecord :=
  { scenarioId := "s", title := "t", choiceId := "c", choiceTitle := "ct",
    age := 18, stage := .early, outcome := "o",
    oceanBefore := ⟨50, 50, 50, 50, 50⟩, stressBefore := 30,
    oceanAfter := ⟨50, 50, 50, 50, 50⟩, stressAfter := 30, oceanChanges := [] }

/-- Witness for C7: with an empty catalogue, history length 4 at age 30
does not end the simulation, history length 5 does, and age 80 ends it
unconditionally. -/
theorem shouldEndSimulation_characterization_witness :
    shouldEndSimulation
        ⟨[], 30, .mid, [dummyEvent, dummyEvent, dummyEvent, dummyEvent], []⟩
      = false ∧
    shouldEndSimulation
        ⟨[], 30, .mid,
          [dummyEvent, dummyEvent, dummyEvent, dummyEvent, dummyEvent], []⟩
      = true ∧
    shouldEndSimulation ⟨[], 80, .later, [], []⟩ = true :=
  ⟨shouldEndSimulation_characterization.2.1 _ (by norm_num) rfl rfl,
   shouldEndSimulation_characterization.2.2.1 _ rfl rfl,
   shouldEndSimulation_characterization.2.2.2 _ (by norm_num)⟩

/-- The event-system state before a load attempt used by the C9
counterexample: a previously loaded empty catalogue. -/
def preLoadState : LoadState :=
  { scenarios := some [], trajectoryDescriptions := none,
    globalModifiers := none, currentAge := 18, currentStage := .early,
    eventHistory := [], availableScenarios := [] }

/-- A parsed document whose scenarios field is missing. -/
def malformedCatalog : RawCatalog :=
  { scenarios := none, trajectory_descriptions := none,
    global_modifiers := none }

/-- C9 counterexample: a document that parses but lacks its scenarios
list makes loadScenarios report failure, yet the engine does not remain
in its pre-load state: its scenario list has been overwritten. -/
theorem loadScenarios_counterexample :
    (loadScenarios preLoadState (some malformedCatalog)).1 = false ∧
    (loadScenarios preLoadState (some malformedCatalog)).2.scenarios
        ≠ preLoadState.scenarios := by
  constructor
  · rfl
  · decide

/-- C9 (amended): when the source is unreachable or unparsable the
engine reports failure and keeps its exact pre-load state; when a
document parses but lacks its scenarios list, the engine still reports
failure without crashing, but the scenario list and auxiliary lookup
tables have by then been overwritten with the document fields (only the
available-scenario set keeps its prior value). -/
theorem loadScenarios_amended :
    (∀ st : LoadState, loadScenarios st none = (false, st)) ∧
    (∀ (st : LoadState) (d : RawCatalog), d.scenarios = none →
        (loadScenarios st (some d)).1 = false ∧
        (loadScenarios st (some d)).2 =
          { st with
            scenarios := none
            trajectoryDescriptions := d.trajectory_descriptions
            globalModifiers := d.global_modifiers }) := by
  constructor
  · intro st
    rfl
  · intro st d hd
    constructor <;> simp only [loadScenarios, hd]

/-- Witness for the amended C9 theorem: an unreachable source leaves
the concrete pre-load state untouched, and the malformed document
reports false. -/
theorem loadScenarios_amended_witness :
    loadScenarios preLoadState none = (false, preLoadState) ∧
    (loadScenarios preLoadState (some malformedCatalog)).1 = false :=
  ⟨loadScenarios_amended.1 preLoadState,
   (loadScenarios_amended.2 preLoadState malformedCatalog rfl).1⟩

end PersonalitySim
